import Mathlib

/-!
Verification of PyCabfile (a reader/extractor for Microsoft Cabinet files)
against its natural-language specification.

The repository source (`PyCabfile.py`) is a thin wrapper around the OS
cabinet service `SetupIterateCabinetW`: the `Cabinet` class drives the OS
iteration through a per-file callback.  The cabinet *engine* itself
(header/table parsing, CFDATA checksums, codec layer, byte extraction) is
provided by the OS and is therefore modelled here from the specification,
while the Python class (`__init__`, `_do_callback`, `_py_file_callback`,
`extract`, `extract_all`, `_getdir`) is embedded directly from the source.

Bytes are modelled as `Nat` (values < 256 in well-formed data), byte
buffers as `List Nat`, and Python unicode strings as `List Char`.
-/

namespace PyCabfile

/-! ### Constants from the source (`PyCabfile.py`, lines 31–39) -/

def SPFILENOTIFY_CABINETINFO : Nat := 0x00000010
def SPFILENOTIFY_FILEINCABINET : Nat := 0x00000011
def SPFILENOTIFY_NEEDNEWCABINET : Nat := 0x00000012
def SPFILENOTIFY_FILEEXTRACTED : Nat := 0x00000013
def FILEOP_SKIP : Nat := 2
def FILEOP_DOIT : Nat := 1
def FILEOP_ABORT : Nat := 0
def NO_ERROR : Nat := 0

/-! ### Error taxonomy (spec §7) -/

/-- Modelled from the spec (§7): the error taxonomy of the cabinet engine. -/
inductive CabError where
  | MalformedHeader
  | UnsupportedVersion
  | InvalidTableOffset
  | TruncatedData
  | ChecksumMismatch
  | CorruptBlock
  | SizeMismatch
  | UnknownFile
  | UnsupportedCodec
  deriving DecidableEq, Repr

/-- The Python-level exception raised by the wrapper (`CabinetError` in the
source, lines 59–69); the message/`GetLastError` payload is not modelled. -/
inductive PyError where
  | CabinetError
  deriving DecidableEq, Repr

/-! ### Data model (spec §3, §6) -/

/-- Modelled from the spec (§3): compression-type tag of a Folder. -/
inductive CompressionType where
  | Stored
  | MSZIP
  | Quantum (level : Nat) (window : Nat)
  | LZX (window : Nat)
  deriving DecidableEq, Repr

/-- Modelled from the spec (§3, §6): one CFDATA block — checksum over the
compressed bytes, compressed payload, declared uncompressed size. -/
structure DataBlock where
  checksum : Nat
  payload : List Nat
  uncompSize : Nat
  deriving DecidableEq, Repr

/-- Modelled from the spec (§3, §6): one Folder — its ordered CFDATA blocks
and its compression-type tag. -/
structure Folder where
  blocks : List DataBlock
  comp : CompressionType
  deriving DecidableEq, Repr

/-- Modelled from the spec (§3, §6): one file record of the file table. -/
structure FileEntry where
  name : List Char
  size : Nat
  offset : Nat
  folderIndex : Nat
  date : Nat
  time : Nat
  attribs : Nat
  deriving DecidableEq, Repr

/-- Modelled from the spec (§3): a parsed cabinet — folder table and file
table, in table order. -/
structure Cab where
  folders : List Folder
  files : List FileEntry
  deriving DecidableEq, Repr

/-! ### Checksum (spec §4.4)

The cabinet-format running checksum over the compressed bytes: bytes are
combined as little-endian 32-bit words XORed together, the 1–3 trailing
bytes being packed high-to-low as in the format's reference algorithm.
(The reference packs bytes with `|`; for byte values < 256 the positions
are disjoint, so the XOR-combination used here coincides with it.) -/

/-- Little-endian 32-bit word from four bytes (XOR-combination of the
disjoint shifted byte positions). -/
def le32 (a b c d : Nat) : Nat := a ^^^ (b <<< 8) ^^^ (c <<< 16) ^^^ (d <<< 24)

/-- Modelled from the spec (§4.4): the cabinet-format-defined running XOR
checksum computed over a byte sequence. -/
def csum : List Nat → Nat
  | [] => 0
  | [a] => a
  | [a, b] => (a <<< 8) ^^^ b
  | [a, b, c] => (a <<< 16) ^^^ (b <<< 8) ^^^ c
  | a :: b :: c :: d :: rest => le32 a b c d ^^^ csum rest

/-- Flip bit `k` of the byte at index `i` of a byte buffer. -/
def flipBit (l : List Nat) (i k : Nat) : List Nat :=
  l.set i (l.getD i 0 ^^^ (1 <<< k))

/-! ### Codec layer (spec §4.3) -/

/-- Modelled from the spec (§4.3): a codec turns (compression tag, history
of previously decompressed bytes of the folder — the cross-block window
state, threaded explicitly per spec §9 —, compressed payload, expected
uncompressed size) into bytes or an error.  MSZIP/Quantum/LZX are external
published algorithms; the development quantifies over the codec family. -/
abbrev Codec := CompressionType → List Nat → List Nat → Nat → Except CabError (List Nat)

/-- Modelled from the spec (§4.3): the `Stored` codec is the identity copy,
failing with `SizeMismatch` when the payload length differs from the
expected size.  The other tags are not implemented by this concrete family
(used for concrete evaluation only); they fail with `UnsupportedCodec`. -/
def msCodecs : Codec := fun ct _history payload expected =>
  match ct with
  | .Stored => if payload.length = expected then .ok payload else .error .SizeMismatch
  | _ => .error .UnsupportedCodec

/-- Modelled from the spec (§4.3, §4.4): decompress one CFDATA block.  The
block's checksum over the compressed bytes is verified FIRST; on mismatch
the result is `ChecksumMismatch` and the codec is never consulted.  A
successful codec result whose length differs from the declared uncompressed
size is `CorruptBlock`. -/
def decompress_block (codec : Codec) (ct : CompressionType) (history : List Nat)
    (blk : DataBlock) : Except CabError (List Nat) :=
  if csum blk.payload = blk.checksum then
    match codec ct history blk.payload blk.uncompSize with
    | .error e => .error e
    | .ok out => if out.length = blk.uncompSize then .ok out else .error .CorruptBlock
  else .error .ChecksumMismatch

/-- Modelled from the spec (§4.5): decompress a folder's blocks strictly
sequentially from the first, threading the decompressed history (the
cross-block codec window) and concatenating the outputs. -/
def folderStreamAux (codec : Codec) (ct : CompressionType) (history : List Nat) :
    List DataBlock → Except CabError (List Nat)
  | [] => .ok []
  | b :: bs =>
    match decompress_block codec ct history b with
    | .error e => .error e
    | .ok out =>
      match folderStreamAux codec ct (history ++ out) bs with
      | .error e => .error e
      | .ok rest => .ok (out ++ rest)

/-- Modelled from the spec (§4.5): the full uncompressed stream of a folder. -/
def folderStream (codec : Codec) (fld : Folder) : Except CabError (List Nat) :=
  folderStreamAux codec fld.comp [] fld.blocks

/-- Modelled from the spec (§2, §4.5): the Extractor — locate the owning
folder, decompress its blocks in order, then copy out exactly the file's
byte range `[offset, offset+size)` of the uncompressed stream. -/
def extractFileBytes (codec : Codec) (cab : Cab) (f : FileEntry) :
    Except CabError (List Nat) :=
  match cab.folders[f.folderIndex]? with
  | none => .error .InvalidTableOffset
  | some fld =>
    match folderStream codec fld with
    | .error e => .error e
    | .ok stream =>
      if f.offset + f.size ≤ stream.length then .ok ((stream.drop f.offset).take f.size)
      else .error .CorruptBlock

/-- The bytes extracted for a file, defaulting to `[]` on error (used only
to describe write lists whose extractions are known to succeed). -/
def extractBytesD (codec : Codec) (cab : Cab) (f : FileEntry) : List Nat :=
  match extractFileBytes codec cab f with
  | .ok b => b
  | .error _ => []

/-- Whether an engine result is a success. -/
def exceptOk {α : Type} : Except CabError α → Bool
  | .ok _ => true
  | .error _ => false

/-- Modelled from the spec (§3 invariants): a valid cabinet — every
file's folder index is in range, the folder's blocks all decode, and the
file's declared range lies within the folder's uncompressed stream. -/
def validCab (codec : Codec) (cab : Cab) : Bool :=
  cab.files.all (fun f =>
    match cab.folders[f.folderIndex]? with
    | none => false
    | some fld =>
      match folderStream codec fld with
      | .error _ => false
      | .ok s => decide (f.offset + f.size ≤ s.length))

/-! ### Python string helpers (source lines 168, 188–189, 217)

Python `s.rfind(c)`, `s.find(c)` and slicing, on `List Char`. -/

/-- Python `s.rfind(c)`: index of the last occurrence, or `-1` if absent. -/
def pyRfind (s : List Char) (c : Char) : Int :=
  if c ∈ s then ((s.length - 1 - s.reverse.indexOf c : Nat) : Int) else -1

/-- Python `s.find(c)`: index of the first occurrence, or `-1` if absent. -/
def pyFind (s : List Char) (c : Char) : Int :=
  if c ∈ s then ((s.indexOf c : Nat) : Int) else -1

/-- Python slice `s[i:j]` with a possibly negative upper bound `j`. -/
def pySlice (s : List Char) (i : Nat) (j : Int) : List Char :=
  let jn : Nat := if j < 0 then ((s.length : Int) + j).toNat else j.toNat
  (s.take jn).drop i

/-- Embeds the slice after the last backslash from the source (lines 168 and
217): the portion of a cabinet path after its last backslash (the whole
string when it has no backslash, since `rfind` then yields `-1`). -/
def afterLastBackslash (s : List Char) : List Char :=
  s.drop (pyRfind s '\\' + 1).toNat

/-- The terminating NUL character appended by the source (`u"\u0000"`). -/
def NUL : Char := Char.ofNat 0

/-! ### The Python `Cabinet` class, embedded from the source -/

/-- Embeds `CabinetFile` (source lines 72–101): a catalog entry as recorded by the
listing callback — the name plus the `FILE_IN_CABINET_INFO` data attached
as `_file_in_cab` (the back-reference to the owning cabinet is implicit). -/
structure CabinetFileRec where
  name : List Char
  fileSize : Nat
  dosDate : Nat
  dosTime : Nat
  dosAttribs : Nat
  deriving DecidableEq, Repr

/-- The mutable attributes of a `Cabinet` instance (source lines 139–145). -/
structure CabinetState where
  name : List Char
  files : List CabinetFileRec
  _extract_all : Bool
  _file_to_extract : Option (List Char)
  _dest : Option (List Char)
  _list_files : Bool
  deriving DecidableEq, Repr

/-- Embeds `FILE_IN_CABINET_INFO` (source lines 47–56); `FullTargetName` is the
out-parameter the callback fills in before returning `FILEOP_DOIT`. -/
structure FILE_IN_CABINET_INFO where
  NameInCabinet : List Char
  FileSize : Nat
  Win32Error : Nat
  DosDate : Nat
  DosTime : Nat
  DosAttribs : Nat
  FullTargetName : List Char
  deriving DecidableEq, Repr

/-- Outcome of one callback invocation: a returned code together with the
(possibly mutated) object state and info record, or a raised exception
(the `raise CabinetError` of the unknown-notification branch). -/
inductive CbResult where
  | ret (code : Nat) (st : CabinetState) (fi : FILE_IN_CABINET_INFO)
  | exn
  deriving DecidableEq, Repr

/-- Embeds `Cabinet._py_file_callback` (source lines 157–185), branch by
branch.  On `SPFILENOTIFY_FILEINCABINET`: in listing mode append a
`CabinetFile` and fall through to `FILEOP_SKIP`; in extract-all mode set
`FullTargetName` to `dest \ lastpart NUL` and return `FILEOP_DOIT`; in
single-extract mode return `FILEOP_DOIT` with `FullTargetName = dest NUL`
exactly when the name equals `_file_to_extract`, else `FILEOP_SKIP`.  The
three other known notifications fall through to `return NO_ERROR`; an
unknown notification raises `CabinetError`. -/
def pyFileCallback (self : CabinetState) (notification : Nat)
    (fi : FILE_IN_CABINET_INFO) : CbResult :=
  if notification = SPFILENOTIFY_FILEINCABINET then
    let file_name := fi.NameInCabinet
    if self._list_files then
      let f : CabinetFileRec :=
        ⟨file_name, fi.FileSize, fi.DosDate, fi.DosTime, fi.DosAttribs⟩
      .ret FILEOP_SKIP { self with files := self.files ++ [f] } fi
    else if self._extract_all then
      let last_part := afterLastBackslash file_name
      let extract_path := self._dest.getD [] ++ ['\\'] ++ last_part ++ [NUL]
      .ret FILEOP_DOIT self { fi with FullTargetName := extract_path }
    else if some file_name = self._file_to_extract then
      .ret FILEOP_DOIT self { fi with FullTargetName := self._dest.getD [] ++ [NUL] }
    else
      .ret FILEOP_SKIP self fi
  else if notification = SPFILENOTIFY_CABINETINFO then .ret NO_ERROR self fi
  else if notification = SPFILENOTIFY_NEEDNEWCABINET then .ret NO_ERROR self fi
  else if notification = SPFILENOTIFY_FILEEXTRACTED then .ret NO_ERROR self fi
  else .exn

/-- The `FILE_IN_CABINET_INFO` the OS iteration presents to the callback
for a file-table entry (`Win32Error` 0, empty `FullTargetName`). -/
def mkFileInfo (f : FileEntry) : FILE_IN_CABINET_INFO :=
  ⟨f.name, f.size, 0, f.date, f.time, f.attribs, []⟩

/-- A file written to disk by the OS iteration: destination path (as handed
over in `FullTargetName`) and extracted contents. -/
structure WriteRec where
  path : List Char
  contents : List Nat
  deriving DecidableEq, Repr

/-- Modelled from the spec (§2, §4.5, §9): the per-file phase of the OS
service `SetupIterateCabinetW`, which is not part of the repository.  Each
file-table entry is announced via `SPFILENOTIFY_FILEINCABINET`; on
`FILEOP_DOIT` the engine extracts the file's bytes, writes them to the
`FullTargetName` chosen by the callback and announces
`SPFILENOTIFY_FILEEXTRACTED`; on `FILEOP_SKIP` it moves on; any other code,
a raised callback, or an engine error aborts the iteration with failure.
Returns (callback state, success flag, files written so far). -/
def iterateAux (codec : Codec) (cab : Cab) :
    List FileEntry → CabinetState → List WriteRec →
    CabinetState × Bool × List WriteRec
  | [], st, ws => (st, true, ws)
  | f :: fs, st, ws =>
    match pyFileCallback st SPFILENOTIFY_FILEINCABINET (mkFileInfo f) with
    | .exn => (st, false, ws)
    | .ret code st' fi' =>
      if code = FILEOP_DOIT then
        match extractFileBytes codec cab f with
        | .error _ => (st', false, ws)
        | .ok bytes =>
          let ws' := ws ++ [⟨fi'.FullTargetName, bytes⟩]
          match pyFileCallback st' SPFILENOTIFY_FILEEXTRACTED (mkFileInfo f) with
          | .exn => (st', false, ws')
          | .ret c2 st2 _ =>
            if c2 = NO_ERROR then iterateAux codec cab fs st2 ws'
            else (st2, false, ws')
      else if code = FILEOP_SKIP then iterateAux codec cab fs st' ws
      else (st', false, ws)

/-- Modelled from the spec (§2, §4.2, §9): `SetupIterateCabinetW` — parse
the cabinet (failure means the call reports failure and nothing is
iterated), announce `SPFILENOTIFY_CABINETINFO`, then iterate the file
table. -/
def setupIterateCabinet (codec : Codec) (parsed : Except CabError Cab)
    (st : CabinetState) : CabinetState × Bool × List WriteRec :=
  match parsed with
  | .error _ => (st, false, [])
  | .ok cab =>
    match pyFileCallback st SPFILENOTIFY_CABINETINFO ⟨[], 0, 0, 0, 0, 0, []⟩ with
    | .exn => (st, false, [])
    | .ret c st' _ =>
      if c = NO_ERROR then iterateAux codec cab cab.files st' []
      else (st', false, [])

/-- Embeds `Cabinet._do_callback` (source lines 149–155): run the OS iteration
with the Python callback; when the call reports failure, raise
`CabinetError`.  The state mutations and files written before the failure
persist (they happened before the exception). -/
def do_callback (codec : Codec) (parsed : Except CabError Cab)
    (st : CabinetState) : CabinetState × List WriteRec × Except PyError Unit :=
  let r := setupIterateCabinet codec parsed st
  (r.1, r.2.2, if r.2.1 then .ok () else .error .CabinetError)

/-- Embeds `Cabinet.__init__` (source lines 135–147): initialise the attributes,
run the iteration in listing mode, then leave listing mode.  A raised
`CabinetError` propagates, so no object is constructed. -/
def cabinetInit (codec : Codec) (parsed : Except CabError Cab)
    (cabinet_path : List Char) : Except PyError CabinetState :=
  let st0 : CabinetState :=
    { name := cabinet_path, files := [], _extract_all := false,
      _file_to_extract := none, _dest := none, _list_files := true }
  match do_callback codec parsed st0 with
  | (_, _, .error e) => .error e
  | (st1, _, .ok _) => .ok { st1 with _list_files := false }

/-- Embeds `Cabinet._getdir` (source lines 187–195): the directory name derived
from the cab path, `name[name.rfind('\\')+1 : name.find('.')]`.  The
`stat`/`mkdir` directory creation is filesystem glue (excluded by spec §1)
and not modelled. -/
def getdir (self_name : List Char) : List Char :=
  pySlice self_name (pyRfind self_name '\\' + 1).toNat (pyFind self_name '.')

/-- The default destination `extract` computes when `dest` is omitted
(source lines 215–218): `getcwd() \ getdir() \ last_part`. -/
def extractDefaultDest (cwd self_name file_name : List Char) : List Char :=
  cwd ++ ['\\'] ++ getdir self_name ++ ['\\'] ++ afterLastBackslash file_name

/-- Embeds `Cabinet.extract` (source lines 197–228): compute the destination
(default when omitted), set `_file_to_extract`/`_dest`, run the iteration,
and reset the two fields before returning the destination.  When
`_do_callback` raises, the exception propagates and the resets are NOT
executed.  Returns (object state, files written, result). -/
def extract (codec : Codec) (parsed : Except CabError Cab) (cwd : List Char)
    (st : CabinetState) (file_name : List Char) (dest : Option (List Char)) :
    CabinetState × List WriteRec × Except PyError (List Char) :=
  let dest' := match dest with
    | some d => d
    | none => extractDefaultDest cwd st.name file_name
  let st1 := { st with _file_to_extract := some file_name, _dest := some dest' }
  match do_callback codec parsed st1 with
  | (st2, ws, .error e) => (st2, ws, .error e)
  | (st2, ws, .ok _) =>
    ({ st2 with _file_to_extract := none, _dest := none }, ws, .ok dest')

/-- Embeds `Cabinet.extract_all` (source lines 230–259): compute the destination
(default when omitted; the `stat`/`mkdir` of a given dest is filesystem
glue), set `_extract_all`/`_dest`, run the iteration, reset the two fields
and return the destination.  When `_do_callback` raises, the exception
propagates and the resets are NOT executed. -/
def extract_all (codec : Codec) (parsed : Except CabError Cab) (cwd : List Char)
    (st : CabinetState) (dest : Option (List Char)) :
    CabinetState × List WriteRec × Except PyError (List Char) :=
  let dest' := match dest with
    | some d => d
    | none => cwd ++ ['\\'] ++ getdir st.name
  let st1 := { st with _extract_all := true, _dest := some dest' }
  match do_callback codec parsed st1 with
  | (st2, ws, .error e) => (st2, ws, .error e)
  | (st2, ws, .ok _) =>
    ({ st2 with _extract_all := false, _dest := none }, ws, .ok dest')

/-- The `FullTargetName` a callback outcome hands to the OS (`[]` for a
raised callback). -/
def cbTargetName (r : CbResult) : List Char :=
  match r with
  | .ret _ _ fi => fi.FullTargetName
  | .exn => []

/-- The catalog entry the listing callback records for a file-table entry. -/
def mkCabinetFileRec (f : FileEntry) : CabinetFileRec :=
  ⟨f.name, f.size, f.date, f.time, f.attribs⟩

/-- Modelled from the spec (§9, the short-circuit refinement): the same
per-file iteration as `iterateAux`, except that after one file has been
extracted (a `FILEOP_DOIT` processed to completion) the scan stops early
with success instead of presenting the remaining entries. -/
def iterateShortCircuit (codec : Codec) (cab : Cab) :
    List FileEntry → CabinetState → List WriteRec →
    CabinetState × Bool × List WriteRec
  | [], st, ws => (st, true, ws)
  | f :: fs, st, ws =>
    match pyFileCallback st SPFILENOTIFY_FILEINCABINET (mkFileInfo f) with
    | .exn => (st, false, ws)
    | .ret code st' fi' =>
      if code = FILEOP_DOIT then
        match extractFileBytes codec cab f with
        | .error _ => (st', false, ws)
        | .ok bytes =>
          let ws' := ws ++ [⟨fi'.FullTargetName, bytes⟩]
          match pyFileCallback st' SPFILENOTIFY_FILEEXTRACTED (mkFileInfo f) with
          | .exn => (st', false, ws')
          | .ret c2 st2 _ =>
            if c2 = NO_ERROR then (st2, true, ws')
            else (st2, false, ws')
      else if code = FILEOP_SKIP then iterateShortCircuit codec cab fs st' ws
      else (st', false, ws)

/-! ### Header & table parser (spec §4.2, §6)

The structural parser is part of the engine the OS provides; it is
modelled here from the specification's byte-level format description. -/

/-- Modelled from the spec (§4.1): a bounds-checked cursor over raw bytes. -/
structure ByteReader where
  data : List Nat
  pos : Nat
  deriving DecidableEq, Repr

/-- Modelled from the spec (§4.1): read `n` bytes, failing with
`TruncatedData` when fewer remain. -/
def readBytes (n : Nat) (r : ByteReader) : Except CabError (List Nat × ByteReader) :=
  if r.pos + n ≤ r.data.length then
    .ok ((r.data.drop r.pos).take n, ⟨r.data, r.pos + n⟩)
  else .error .TruncatedData

/-- Modelled from the spec (§4.1): read one byte. -/
def readU8 (r : ByteReader) : Except CabError (Nat × ByteReader) :=
  match readBytes 1 r with
  | .error e => .error e
  | .ok (bs, r') => .ok (bs.getD 0 0, r')

/-- Modelled from the spec (§4.1, §6): read a little-endian u16. -/
def readU16 (r : ByteReader) : Except CabError (Nat × ByteReader) :=
  match readBytes 2 r with
  | .error e => .error e
  | .ok (bs, r') => .ok (bs.getD 0 0 + (bs.getD 1 0) * 256, r')

/-- Modelled from the spec (§4.1, §6): read a little-endian u32. -/
def readU32 (r : ByteReader) : Except CabError (Nat × ByteReader) :=
  match readBytes 4 r with
  | .error e => .error e
  | .ok (bs, r') =>
    .ok (bs.getD 0 0 + (bs.getD 1 0) * 256 + (bs.getD 2 0) * 65536 +
         (bs.getD 3 0) * 16777216, r')

/-- Modelled from the spec (§4.1): seek the cursor to an absolute offset
(table parsing is not strictly sequential). -/
def seekTo (off : Nat) (r : ByteReader) : ByteReader := ⟨r.data, off⟩

/-- Modelled from the spec (§6): read a null-terminated byte string,
failing with `TruncatedData` when no terminator remains. -/
def readCString (r : ByteReader) : Except CabError (List Nat × ByteReader) :=
  let rest := (r.data.drop r.pos).takeWhile (fun b => b ≠ 0)
  if r.pos + rest.length < r.data.length then
    .ok (rest, ⟨r.data, r.pos + rest.length + 1⟩)
  else .error .TruncatedData

/-- Modelled from the spec (§6): read a null-terminated wide (UTF-16)
string as a list of 16-bit units. -/
def readCWString (fuel : Nat) (r : ByteReader) :
    Except CabError (List Nat × ByteReader) :=
  match fuel with
  | 0 => .error .TruncatedData
  | fuel' + 1 =>
    match readU16 r with
    | .error e => .error e
    | .ok (u, r') =>
      if u = 0 then .ok ([], r')
      else
        match readCWString fuel' r' with
        | .error e => .error e
        | .ok (us, r'') => .ok (u :: us, r'')

/-- Modelled from the spec (§6): decode a folder's `typeCompress` field —
low 4 bits select the codec, Quantum carries a level (bits 4–7) and a
window (bits 8–12), LZX a window (bits 8–12); other tags are
`UnsupportedCodec`. -/
def decodeCompressionType (t : Nat) : Except CabError CompressionType :=
  match t % 16 with
  | 0 => .ok .Stored
  | 1 => .ok .MSZIP
  | 2 => .ok (.Quantum ((t >>> 4) % 16) ((t >>> 8) % 32))
  | 3 => .ok (.LZX ((t >>> 8) % 32))
  | _ => .error .UnsupportedCodec

/-- Modelled from the spec (§6): parse one CFDATA block at the cursor —
checksum u32, cbData u16, cbUncomp u16, reserved area of `cbCFData`
bytes, then `cbData` payload bytes. -/
def parseBlock (cbCFData : Nat) (r : ByteReader) :
    Except CabError (DataBlock × ByteReader) :=
  match readU32 r with
  | .error e => .error e
  | .ok (ck, r1) =>
    match readU16 r1 with
    | .error e => .error e
    | .ok (cbData, r2) =>
      match readU16 r2 with
      | .error e => .error e
      | .ok (cbUncomp, r3) =>
        match readBytes cbCFData r3 with
        | .error e => .error e
        | .ok (_, r4) =>
          match readBytes cbData r4 with
          | .error e => .error e
          | .ok (payload, r5) => .ok (⟨ck, payload, cbUncomp⟩, r5)

/-- Modelled from the spec (§6): parse `n` consecutive CFDATA blocks. -/
def parseBlocks (cbCFData : Nat) : Nat → ByteReader →
    Except CabError (List DataBlock × ByteReader)
  | 0, r => .ok ([], r)
  | n + 1, r =>
    match parseBlock cbCFData r with
    | .error e => .error e
    | .ok (b, r') =>
      match parseBlocks cbCFData n r' with
      | .error e => .error e
      | .ok (bs, r'') => .ok (b :: bs, r'')

/-- Modelled from the spec (§4.2, §6): parse one folder record —
coffCabStart u32 (checked against the buffer length, `InvalidTableOffset`
otherwise), cCFData u16, typeCompress u16, reserved area of `cbCFFolder`
bytes — then its CFDATA blocks at coffCabStart. -/
def parseFolderRec (cbCFFolder cbCFData : Nat) (r : ByteReader) :
    Except CabError (Folder × ByteReader) :=
  match readU32 r with
  | .error e => .error e
  | .ok (coffCabStart, r1) =>
    match readU16 r1 with
    | .error e => .error e
    | .ok (cCFData, r2) =>
      match readU16 r2 with
      | .error e => .error e
      | .ok (typeCompress, r3) =>
        match readBytes cbCFFolder r3 with
        | .error e => .error e
        | .ok (_, r4) =>
          match decodeCompressionType typeCompress with
          | .error e => .error e
          | .ok comp =>
            if coffCabStart ≤ r.data.length then
              match parseBlocks cbCFData cCFData (seekTo coffCabStart r4) with
              | .error e => .error e
              | .ok (blocks, _) => .ok (⟨blocks, comp⟩, r4)
            else .error .InvalidTableOffset

/-- Modelled from the spec (§4.2): parse the fixed-size folder table. -/
def parseFolders (cbCFFolder cbCFData : Nat) : Nat → ByteReader →
    Except CabError (List Folder × ByteReader)
  | 0, r => .ok ([], r)
  | n + 1, r =>
    match parseFolderRec cbCFFolder cbCFData r with
    | .error e => .error e
    | .ok (fld, r') =>
      match parseFolders cbCFFolder cbCFData n r' with
      | .error e => .error e
      | .ok (flds, r'') => .ok (fld :: flds, r'')

/-- Modelled from the spec (§6): turn name code units into characters. -/
def unitsToChars (us : List Nat) : List Char := us.map Char.ofNat

/-- Modelled from the spec (§4.2, §6): parse one file record — cbFile u32,
uoffFolderStart u32, iFolder u16, date u16, time u16, attribs u16, then
szName, a null-terminated string that is wide when attribute bit 0x80
(the name-is-UTF flag) is set and a byte string otherwise. -/
def parseFileRec (r : ByteReader) : Except CabError (FileEntry × ByteReader) :=
  match readU32 r with
  | .error e => .error e
  | .ok (cbFile, r1) =>
    match readU32 r1 with
    | .error e => .error e
    | .ok (uoffFolderStart, r2) =>
      match readU16 r2 with
      | .error e => .error e
      | .ok (iFolder, r3) =>
        match readU16 r3 with
        | .error e => .error e
        | .ok (date, r4) =>
          match readU16 r4 with
          | .error e => .error e
          | .ok (time, r5) =>
            match readU16 r5 with
            | .error e => .error e
            | .ok (attribs, r6) =>
              if attribs &&& 0x80 ≠ 0 then
                match readCWString r6.data.length r6 with
                | .error e => .error e
                | .ok (us, r7) =>
                  .ok (⟨unitsToChars us, cbFile, uoffFolderStart, iFolder,
                        date, time, attribs⟩, r7)
              else
                match readCString r6 with
                | .error e => .error e
                | .ok (bs, r7) =>
                  .ok (⟨unitsToChars bs, cbFile, uoffFolderStart, iFolder,
                        date, time, attribs⟩, r7)

/-- Modelled from the spec (§4.2): parse the fixed-size file table. -/
def parseFiles : Nat → ByteReader → Except CabError (List FileEntry × ByteReader)
  | 0, r => .ok ([], r)
  | n + 1, r =>
    match parseFileRec r with
    | .error e => .error e
    | .ok (f, r') =>
      match parseFiles n r' with
      | .error e => .error e
      | .ok (fs, r'') => .ok (f :: fs, r'')

/-- The 4-byte magic `MSCF`. -/
def MSCF : List Nat := [0x4D, 0x53, 0x43, 0x46]

/-- Modelled from the spec (§4.2, §6): the header-extension and table
phase of `parse`, after the magic has been validated.  Reads reserved1,
cbCabinet, reserved2, coffFiles (checked against the buffer length),
reserved3, version (supported range: 1.3), cFolders, cFiles, flags, setID,
iCabinet; on flag 0x0004 the reserve sizes and the reserved header area;
on flags 0x0001/0x0002 the previous/next cabinet name and disk strings
(chaining itself is not followed); then the folder table and, at
coffFiles, the file table. -/
def parseAfterMagic (r4 : ByteReader) : Except CabError Cab :=
  match readU32 r4 with
  | .error e => .error e
  | .ok (_reserved1, r5) =>
    match readU32 r5 with
    | .error e => .error e
    | .ok (_cbCabinet, r6) =>
      match readU32 r6 with
      | .error e => .error e
      | .ok (_reserved2, r7) =>
        match readU32 r7 with
        | .error e => .error e
        | .ok (coffFiles, r8) =>
          match readU32 r8 with
          | .error e => .error e
          | .ok (_reserved3, r9) =>
            match readU8 r9 with
            | .error e => .error e
            | .ok (versionMinor, r10) =>
              match readU8 r10 with
              | .error e => .error e
              | .ok (versionMajor, r11) =>
                match readU16 r11 with
                | .error e => .error e
                | .ok (cFolders, r12) =>
                  match readU16 r12 with
                  | .error e => .error e
                  | .ok (cFiles, r13) =>
                    match readU16 r13 with
                    | .error e => .error e
                    | .ok (flags, r14) =>
                      match readU16 r14 with
                      | .error e => .error e
                      | .ok (_setID, r15) =>
                        match readU16 r15 with
                        | .error e => .error e
                        | .ok (_iCabinet, r16) =>
                          if ¬ (versionMajor = 1 ∧ versionMinor = 3) then
                            .error .UnsupportedVersion
                          else if coffFiles > r16.data.length then
                            .error .InvalidTableOffset
                          else
                            (if flags &&& 0x0004 ≠ 0 then
                              match readU16 r16 with
                              | .error e => .error e
                              | .ok (cbCFHeader, ra) =>
                                match readU8 ra with
                                | .error e => .error e
                                | .ok (cbCFFolder, rb) =>
                                  match readU8 rb with
                                  | .error e => .error e
                                  | .ok (cbCFData, rc) =>
                                    match readBytes cbCFHeader rc with
                                    | .error e => .error e
                                    | .ok (_, rd) => .ok (cbCFFolder, cbCFData, rd)
                             else .ok (0, 0, r16) :
                               Except CabError (Nat × Nat × ByteReader)).bind
                            (fun res =>
                              let cbCFFolder := res.1
                              let cbCFData := res.2.1
                              let r17 := res.2.2
                              (if flags &&& 0x0001 ≠ 0 then
                                match readCString r17 with
                                | .error e => .error e
                                | .ok (_, ra) =>
                                  match readCString ra with
                                  | .error e => .error e
                                  | .ok (_, rb) => .ok rb
                               else .ok r17 : Except CabError ByteReader).bind
                              (fun r18 =>
                                (if flags &&& 0x0002 ≠ 0 then
                                  match readCString r18 with
                                  | .error e => .error e
                                  | .ok (_, ra) =>
                                    match readCString ra with
                                    | .error e => .error e
                                    | .ok (_, rb) => .ok rb
                                 else .ok r18 : Except CabError ByteReader).bind
                                (fun r19 =>
                                  match parseFolders cbCFFolder cbCFData cFolders r19 with
                                  | .error e => .error e
                                  | .ok (folders, r20) =>
                                    match parseFiles cFiles (seekTo coffFiles r20) with
                                    | .error e => .error e
                                    | .ok (files, _) => .ok ⟨folders, files⟩)))

/-- Modelled from the spec (§4.2): `parse(bytes) -> CabinetArchive` — the
4-byte magic is validated first (`MalformedHeader` on mismatch,
`TruncatedData` when fewer than 4 bytes remain), then the header fields,
optional extensions and the folder/file tables are read. -/
def parseCab (bytes : List Nat) : Except CabError Cab :=
  match readBytes 4 ⟨bytes, 0⟩ with
  | .error e => .error e
  | .ok (magic, r4) =>
    if magic = MSCF then parseAfterMagic r4 else .error .MalformedHeader

/-- The contents a sequence of writes leaves at a destination path (the
last write wins), `none` when the path was never written: the externally
observable outcome of an extraction at that path. -/
def finalContents (ws : List WriteRec) (p : List Char) : Option (List Nat) :=
  ((ws.filter (fun w => w.path == p)).map (fun w => w.contents)).getLast?

/-! ### Concrete cabinets for evaluation -/

/-- A one-block `Stored` folder holding the given bytes, with a correct
checksum. -/
def storedFolder (bytes : List Nat) : Folder :=
  ⟨[⟨csum bytes, bytes, bytes.length⟩], .Stored⟩

/-- A one-block `Stored` folder whose recorded checksum is off by one. -/
def corruptFolder (bytes : List Nat) : Folder :=
  ⟨[⟨csum bytes + 1, bytes, bytes.length⟩], .Stored⟩

/-- A small healthy cabinet: one folder, one 3-byte file `a`. -/
def cabDemo : Cab :=
  { folders := [storedFolder [10, 20, 30]],
    files := [⟨['a'], 3, 0, 0, 0, 0, 0⟩] }

/-- The object state right after `Cabinet('p')` on `cabDemo`. -/
def stDemo : CabinetState :=
  { name := ['p'], files := cabDemo.files.map mkCabinetFileRec,
    _extract_all := false, _file_to_extract := none, _dest := none,
    _list_files := false }

/-- A cabinet whose file `a` is healthy and whose file `b` sits in a
folder with a corrupted block checksum. -/
def cabMixed : Cab :=
  { folders := [storedFolder [10, 20, 30], corruptFolder [7]],
    files := [⟨['a'], 3, 0, 0, 0, 0, 0⟩, ⟨['b'], 1, 0, 1, 0, 0, 0⟩] }

/-- The object state right after `Cabinet('p')` on `cabMixed`. -/
def stMixed : CabinetState :=
  { name := ['p'], files := cabMixed.files.map mkCabinetFileRec,
    _extract_all := false, _file_to_extract := none, _dest := none,
    _list_files := false }

/-- Like `cabMixed` but with a further healthy file `c` after the broken
one, to observe where `extract_all` stops. -/
def cabMixed3 : Cab :=
  { folders := [storedFolder [10, 20, 30], corruptFolder [7]],
    files := [⟨['a'], 3, 0, 0, 0, 0, 0⟩, ⟨['b'], 1, 0, 1, 0, 0, 0⟩,
              ⟨['c'], 2, 0, 0, 0, 0, 0⟩] }

/-- The object state right after `Cabinet('p')` on `cabMixed3`. -/
def stMixed3 : CabinetState :=
  { name := ['p'], files := cabMixed3.files.map mkCabinetFileRec,
    _extract_all := false, _file_to_extract := none, _dest := none,
    _list_files := false }

/-- The object state `cabMixed`'s wrapper is left in after a failed
extraction of `b` to destination `d`. -/
def stMixedFail : CabinetState :=
  { stMixed with _file_to_extract := some ['b'], _dest := some ['d'] }

/-- A cabinet with two files both named `A` but different contents. -/
def cabDup : Cab :=
  { folders := [storedFolder [1], storedFolder [2]],
    files := [⟨['A'], 1, 0, 0, 0, 0, 0⟩, ⟨['A'], 1, 0, 1, 0, 0, 0⟩] }

/-- A cabinet satisfying every spec §3 validity invariant that carries two
entries both named `A`, of declared sizes 1 and 2, in separate healthy
folders. -/
def cabDupSz : Cab :=
  { folders := [storedFolder [1], storedFolder [2, 3]],
    files := [⟨['A'], 1, 0, 0, 0, 0, 0⟩, ⟨['A'], 2, 0, 1, 0, 0, 0⟩] }

/-- The object state right after `Cabinet('p')` on `cabDupSz`. -/
def stDupSz : CabinetState :=
  { name := ['p'], files := cabDupSz.files.map mkCabinetFileRec,
    _extract_all := false, _file_to_extract := none, _dest := none,
    _list_files := false }

/-- An object state on `cabDup` in single-extract mode targeting `A`. -/
def stDup : CabinetState :=
  { name := ['p'], files := cabDup.files.map mkCabinetFileRec,
    _extract_all := false, _file_to_extract := some ['A'], _dest := some ['d'],
    _list_files := false }

/-- The wrapper state on `cabDemo` while a single-file extraction of `a`
to destination `d` is in flight. -/
def stDemoX : CabinetState :=
  { stDemo with _file_to_extract := some ['a'], _dest := some ['d'] }

/-- The wrapper state on `cabDemo` while an extract-all to destination `d`
is in flight. -/
def stDemoAll : CabinetState :=
  { stDemo with _extract_all := true, _dest := some ['d'] }

/-! ### Supporting lemmas: checksum linearity -/

/-- Left shift distributes over XOR. -/
theorem xor_shiftLeft (x y n : Nat) : (x ^^^ y) <<< n = (x <<< n) ^^^ (y <<< n) := by
  apply Nat.eq_of_testBit_eq
  intro i
  simp [Nat.testBit_shiftLeft, Nat.testBit_xor, Bool.and_xor_distrib_left]

/-- XOR on `Nat` is left-commutative (helper for permutative rewriting). -/
theorem xor_left_comm (a b c : Nat) : a ^^^ (b ^^^ c) = b ^^^ (a ^^^ c) := by
  rw [← Nat.xor_assoc, Nat.xor_comm a b, Nat.xor_assoc]

/-- XORing the byte at one position into the checksum XORs a shifted copy
of it into the checksum value. -/
theorem csum_set_xor : ∀ (l : List Nat) (i m : Nat), i < l.length →
    ∃ s, csum (l.set i (l.getD i 0 ^^^ m)) = csum l ^^^ (m <<< s)
  | [], i, m, h => absurd h (by simp)
  | [a], 0, m, _ => ⟨0, by simp [csum]⟩
  | [a], j + 1, m, h => absurd h (by simp)
  | [a, b], 0, m, _ =>
    ⟨8, by
      simp only [List.getD_cons_zero, List.set_cons_zero, csum, xor_shiftLeft]
      simp [Nat.xor_assoc, Nat.xor_comm, xor_left_comm]⟩
  | [a, b], 1, m, _ =>
    ⟨0, by
      simp only [csum, List.getD_cons_succ, List.getD_cons_zero,
        List.set_cons_succ, List.set_cons_zero, Nat.shiftLeft_zero]
      simp [Nat.xor_assoc, Nat.xor_comm, xor_left_comm]⟩
  | [a, b], j + 2, m, h => absurd h (by simp)
  | [a, b, c], 0, m, _ =>
    ⟨16, by
      simp only [List.getD_cons_zero, List.set_cons_zero, csum, xor_shiftLeft]
      simp [Nat.xor_assoc, Nat.xor_comm, xor_left_comm]⟩
  | [a, b, c], 1, m, _ =>
    ⟨8, by
      simp only [csum, List.getD_cons_succ, List.getD_cons_zero,
        List.set_cons_succ, List.set_cons_zero, xor_shiftLeft]
      simp [Nat.xor_assoc, Nat.xor_comm, xor_left_comm]⟩
  | [a, b, c], 2, m, _ =>
    ⟨0, by
      simp only [csum, List.getD_cons_succ, List.getD_cons_zero,
        List.set_cons_succ, List.set_cons_zero, Nat.shiftLeft_zero]
      simp [Nat.xor_assoc, Nat.xor_comm, xor_left_comm]⟩
  | [a, b, c], j + 3, m, h => absurd h (by simp)
  | a :: b :: c :: d :: rest, 0, m, _ =>
    ⟨0, by
      simp only [List.getD_cons_zero, List.set_cons_zero, csum, le32,
        Nat.shiftLeft_zero]
      simp [Nat.xor_assoc, Nat.xor_comm, xor_left_comm]⟩
  | a :: b :: c :: d :: rest, 1, m, _ =>
    ⟨8, by
      simp only [csum, le32, List.getD_cons_succ, List.getD_cons_zero,
        List.set_cons_succ, List.set_cons_zero, xor_shiftLeft]
      simp [Nat.xor_assoc, Nat.xor_comm, xor_left_comm]⟩
  | a :: b :: c :: d :: rest, 2, m, _ =>
    ⟨16, by
      simp only [csum, le32, List.getD_cons_succ, List.getD_cons_zero,
        List.set_cons_succ, List.set_cons_zero, xor_shiftLeft]
      simp [Nat.xor_assoc, Nat.xor_comm, xor_left_comm]⟩
  | a :: b :: c :: d :: rest, 3, m, _ =>
    ⟨24, by
      simp only [csum, le32, List.getD_cons_succ, List.getD_cons_zero,
        List.set_cons_succ, List.set_cons_zero, xor_shiftLeft]
      simp [Nat.xor_assoc, Nat.xor_comm, xor_left_comm]⟩
  | a :: b :: c :: d :: rest, j + 4, m, h => by
    obtain ⟨s, hs⟩ := csum_set_xor rest j m (by
      simpa [Nat.succ_lt_succ_iff] using h)
    exact ⟨s, by
      simp only [csum, List.getD_cons_succ, List.set_cons_succ, hs, Nat.xor_assoc]⟩

/-- Flipping one bit of a byte buffer changes its checksum. -/
theorem csum_flipBit_ne (l : List Nat) (i k : Nat) (h : i < l.length) :
    csum (flipBit l i k) ≠ csum l := by
  obtain ⟨s, hs⟩ := csum_set_xor l i (1 <<< k) h
  rw [flipBit, hs]
  intro heq
  have h1 : csum l ^^^ (csum l ^^^ (1 <<< k) <<< s) = csum l ^^^ csum l := by
    rw [heq]
  rw [← Nat.xor_assoc, Nat.xor_self, Nat.zero_xor] at h1
  have hpos : 0 < (1 <<< k) <<< s := by
    rw [Nat.shiftLeft_eq, Nat.shiftLeft_eq, Nat.one_mul]
    positivity
  omega

/-! ### Supporting lemmas: the callback, branch by branch -/

theorem pyFileCallback_list (st : CabinetState) (fi : FILE_IN_CABINET_INFO)
    (h : st._list_files = true) :
    pyFileCallback st SPFILENOTIFY_FILEINCABINET fi =
      .ret FILEOP_SKIP
        { st with files := st.files ++
            [⟨fi.NameInCabinet, fi.FileSize, fi.DosDate, fi.DosTime, fi.DosAttribs⟩] }
        fi := by
  simp [pyFileCallback, h]

theorem pyFileCallback_extract_all (st : CabinetState) (fi : FILE_IN_CABINET_INFO)
    (hl : st._list_files = false) (he : st._extract_all = true) :
    pyFileCallback st SPFILENOTIFY_FILEINCABINET fi =
      .ret FILEOP_DOIT st
        { fi with FullTargetName :=
            st._dest.getD [] ++ ['\\'] ++ afterLastBackslash fi.NameInCabinet ++ [NUL] } := by
  simp [pyFileCallback, hl, he]

theorem pyFileCallback_hit (st : CabinetState) (fi : FILE_IN_CABINET_INFO)
    (hl : st._list_files = false) (he : st._extract_all = false)
    (hm : some fi.NameInCabinet = st._file_to_extract) :
    pyFileCallback st SPFILENOTIFY_FILEINCABINET fi =
      .ret FILEOP_DOIT st { fi with FullTargetName := st._dest.getD [] ++ [NUL] } := by
  simp [pyFileCallback, hl, he, hm]

theorem pyFileCallback_miss (st : CabinetState) (fi : FILE_IN_CABINET_INFO)
    (hl : st._list_files = false) (he : st._extract_all = false)
    (hm : ¬ some fi.NameInCabinet = st._file_to_extract) :
    pyFileCallback st SPFILENOTIFY_FILEINCABINET fi = .ret FILEOP_SKIP st fi := by
  simp [pyFileCallback, hl, he, hm]

theorem pyFileCallback_cabinfo (st : CabinetState) (fi : FILE_IN_CABINET_INFO) :
    pyFileCallback st SPFILENOTIFY_CABINETINFO fi = .ret NO_ERROR st fi := by
  simp [pyFileCallback, SPFILENOTIFY_CABINETINFO, SPFILENOTIFY_FILEINCABINET]

theorem pyFileCallback_extracted (st : CabinetState) (fi : FILE_IN_CABINET_INFO) :
    pyFileCallback st SPFILENOTIFY_FILEEXTRACTED fi = .ret NO_ERROR st fi := by
  simp [pyFileCallback, SPFILENOTIFY_FILEEXTRACTED, SPFILENOTIFY_FILEINCABINET,
    SPFILENOTIFY_CABINETINFO, SPFILENOTIFY_NEEDNEWCABINET]

/-! ### Supporting lemmas: the OS iteration, mode by mode -/

/-- Outside listing mode the callback never mutates the object, so neither
does the iteration (in any of its outcomes). -/
theorem iterateAux_fst (codec : Codec) (cab : Cab) (fs : List FileEntry)
    (st : CabinetState) (ws : List WriteRec) (hl : st._list_files = false) :
    (iterateAux codec cab fs st ws).1 = st := by
  induction fs generalizing ws with
  | nil => rfl
  | cons f fs ih =>
    by_cases he : st._extract_all = true
    · rw [iterateAux, pyFileCallback_extract_all st _ hl he]
      simp only [FILEOP_DOIT, if_pos]
      cases hx : extractFileBytes codec cab f with
      | error e => rfl
      | ok bytes =>
        rw [pyFileCallback_extracted]
        simp only [NO_ERROR, if_pos]
        exact ih _
    · by_cases hm : some (mkFileInfo f).NameInCabinet = st._file_to_extract
      · rw [iterateAux, pyFileCallback_hit st _ hl (by simpa using he) hm]
        simp only [FILEOP_DOIT, if_pos]
        cases hx : extractFileBytes codec cab f with
        | error e => rfl
        | ok bytes =>
          rw [pyFileCallback_extracted]
          simp only [NO_ERROR, if_pos]
          exact ih _
      · rw [iterateAux, pyFileCallback_miss st _ hl (by simpa using he) hm]
        simp only [FILEOP_SKIP, FILEOP_DOIT]
        norm_num
        exact ih _

/-- In listing mode the iteration appends one catalog record per
file-table entry, in table order, writes nothing, and reports success. -/
theorem iterateAux_list (codec : Codec) (cab : Cab) (fs : List FileEntry)
    (st : CabinetState) (ws : List WriteRec) (hl : st._list_files = true) :
    iterateAux codec cab fs st ws =
      ({ st with files := st.files ++ fs.map mkCabinetFileRec }, true, ws) := by
  induction fs generalizing st with
  | nil => simp [iterateAux]
  | cons f fs ih =>
    rw [iterateAux, pyFileCallback_list st _ hl]
    simp only [FILEOP_SKIP, FILEOP_DOIT, mkFileInfo]
    norm_num
    rw [ih { st with files := st.files ++ [⟨f.name, f.size, f.date, f.time, f.attribs⟩] } hl]
    simp [mkCabinetFileRec, List.append_assoc]

/-- `Cabinet(path)` on a parseable cabinet: construction succeeds and the
resulting object holds the catalog in file-table order, with the transient
extraction fields idle. -/
theorem cabinetInit_ok (codec : Codec) (cab : Cab) (path : List Char) :
    cabinetInit codec (.ok cab) path =
      .ok { name := path, files := cab.files.map mkCabinetFileRec,
            _extract_all := false, _file_to_extract := none,
            _dest := none, _list_files := false } := by
  rw [cabinetInit, do_callback, setupIterateCabinet, pyFileCallback_cabinfo]
  simp only [NO_ERROR, if_pos]
  rw [iterateAux_list codec cab cab.files _ [] rfl]
  simp

/-- `Cabinet(path)` when parsing fails: `SetupIterateCabinetW` reports
failure, `_do_callback` raises, and no object is constructed. -/
theorem cabinetInit_error (codec : Codec) (e : CabError) (path : List Char) :
    cabinetInit codec (.error e) path = .error .CabinetError := by
  rfl

/-- In single-extract mode, when every catalog entry matching the target
extracts successfully, the iteration succeeds, leaves the object unchanged
and writes exactly the matching entries (in table order) to `_dest`. -/
theorem iterateAux_extract (codec : Codec) (cab : Cab) (t d : List Char)
    (fs : List FileEntry) (st : CabinetState) (ws : List WriteRec)
    (hl : st._list_files = false) (he : st._extract_all = false)
    (ht : st._file_to_extract = some t) (hd : st._dest = some d)
    (hok : ∀ f ∈ fs, f.name = t → exceptOk (extractFileBytes codec cab f) = true) :
    iterateAux codec cab fs st ws =
      (st, true, ws ++ (fs.filter (fun f => f.name == t)).map
        (fun f => ⟨d ++ [NUL], extractBytesD codec cab f⟩)) := by
  induction fs generalizing ws with
  | nil => simp [iterateAux]
  | cons f fs ih =>
    by_cases hname : f.name = t
    · have hm : some (mkFileInfo f).NameInCabinet = st._file_to_extract := by
        simp [mkFileInfo, ht, hname]
      rw [iterateAux, pyFileCallback_hit st _ hl he hm]
      simp only [FILEOP_DOIT, if_pos]
      have hokf := hok f (by simp) hname
      cases hx : extractFileBytes codec cab f with
      | error e => rw [hx] at hokf; simp [exceptOk] at hokf
      | ok bytes =>
        rw [pyFileCallback_extracted]
        simp only [NO_ERROR, if_pos]
        rw [ih _ (fun g hg => hok g (by simp [hg]))]
        simp only [List.filter_cons, hname, beq_self_eq_true, if_pos, List.map_cons]
        simp [hd, extractBytesD, hx, List.append_assoc]
    · have hm : ¬ some (mkFileInfo f).NameInCabinet = st._file_to_extract := by
        simp [mkFileInfo, ht, hname]
      rw [iterateAux, pyFileCallback_miss st _ hl he hm]
      simp only [FILEOP_SKIP, FILEOP_DOIT]
      norm_num
      rw [ih _ (fun g hg => hok g (by simp [hg]))]
      have : (f.name == t) = false := by simpa using hname
      simp [List.filter_cons, this]

/-- In extract-all mode, when every catalog entry extracts successfully,
the iteration succeeds, leaves the object unchanged and writes every entry
(in table order) to `_dest \ lastpart`. -/
theorem iterateAux_extract_all (codec : Codec) (cab : Cab) (d : List Char)
    (fs : List FileEntry) (st : CabinetState) (ws : List WriteRec)
    (hl : st._list_files = false) (he : st._extract_all = true)
    (hd : st._dest = some d)
    (hok : ∀ f ∈ fs, exceptOk (extractFileBytes codec cab f) = true) :
    iterateAux codec cab fs st ws =
      (st, true, ws ++ fs.map
        (fun f => ⟨d ++ ['\\'] ++ afterLastBackslash f.name ++ [NUL],
                   extractBytesD codec cab f⟩)) := by
  induction fs generalizing ws with
  | nil => simp [iterateAux]
  | cons f fs ih =>
    rw [iterateAux, pyFileCallback_extract_all st _ hl he]
    simp only [FILEOP_DOIT, if_pos]
    have hokf := hok f (by simp)
    cases hx : extractFileBytes codec cab f with
    | error e => rw [hx] at hokf; simp [exceptOk] at hokf
    | ok bytes =>
      rw [pyFileCallback_extracted]
      simp only [NO_ERROR, if_pos]
      rw [ih _ (fun g hg => hok g (by simp [hg]))]
      simp [mkFileInfo, hd, extractBytesD, hx, List.append_assoc]

/-- In extract-all mode the iteration stops at the first entry whose
extraction fails: it reports failure, the object is unchanged, the files
already written stay written, and no later entry is attempted. -/
theorem iterateAux_extract_all_fail (codec : Codec) (cab : Cab) (d : List Char)
    (pre rest : List FileEntry) (bad : FileEntry) (e : CabError)
    (st : CabinetState) (ws : List WriteRec)
    (hl : st._list_files = false) (he : st._extract_all = true)
    (hd : st._dest = some d)
    (hpre : ∀ f ∈ pre, exceptOk (extractFileBytes codec cab f) = true)
    (hbad : extractFileBytes codec cab bad = .error e) :
    iterateAux codec cab (pre ++ bad :: rest) st ws =
      (st, false, ws ++ pre.map
        (fun f => ⟨d ++ ['\\'] ++ afterLastBackslash f.name ++ [NUL],
                   extractBytesD codec cab f⟩)) := by
  induction pre generalizing ws with
  | nil =>
    rw [List.nil_append, iterateAux, pyFileCallback_extract_all st _ hl he]
    simp only [FILEOP_DOIT, if_pos]
    rw [hbad]
    simp
  | cons f pre ih =>
    rw [List.cons_append, iterateAux, pyFileCallback_extract_all st _ hl he]
    simp only [FILEOP_DOIT, if_pos]
    have hokf := hpre f (by simp)
    cases hx : extractFileBytes codec cab f with
    | error e' => rw [hx] at hokf; simp [exceptOk] at hokf
    | ok bytes =>
      rw [pyFileCallback_extracted]
      simp only [NO_ERROR, if_pos]
      rw [ih _ (fun g hg => hpre g (by simp [hg]))]
      simp [mkFileInfo, hd, extractBytesD, hx, List.append_assoc]

/-- Outside listing mode, `_do_callback` leaves the object state exactly
as it received it, whether the call succeeds or raises. -/
theorem do_callback_fst (codec : Codec) (parsed : Except CabError Cab)
    (st : CabinetState) (hl : st._list_files = false) :
    (do_callback codec parsed st).1 = st := by
  cases parsed with
  | error e => rfl
  | ok cab =>
    rw [do_callback, setupIterateCabinet, pyFileCallback_cabinfo]
    simp only [NO_ERROR, if_pos]
    exact iterateAux_fst codec cab cab.files st [] hl

/-- `extract` with an explicit destination, when every catalog entry
matching the requested name extracts successfully: the call succeeds,
returns the destination, writes the matching entries to it, and leaves the
object with the two transient fields reset. -/
theorem extract_some_ok (codec : Codec) (cab : Cab) (cwd : List Char)
    (st : CabinetState) (file_name d : List Char)
    (hl : st._list_files = false) (he : st._extract_all = false)
    (hok : ∀ f ∈ cab.files, f.name = file_name →
      exceptOk (extractFileBytes codec cab f) = true) :
    extract codec (.ok cab) cwd st file_name (some d) =
      ({ st with _file_to_extract := none, _dest := none },
       (cab.files.filter (fun f => f.name == file_name)).map
         (fun f => ⟨d ++ [NUL], extractBytesD codec cab f⟩),
       .ok d) := by
  rw [extract, do_callback, setupIterateCabinet, pyFileCallback_cabinfo]
  simp only [NO_ERROR, if_pos]
  rw [iterateAux_extract codec cab file_name d cab.files
    { st with _file_to_extract := some file_name, _dest := some d } [] hl he rfl rfl hok]
  simp

/-- `extract_all` with an explicit destination, when every catalog entry
extracts successfully: the call succeeds, returns the destination, writes
every entry under it, and leaves the object with the two transient fields
reset. -/
theorem extract_all_some_ok (codec : Codec) (cab : Cab) (cwd : List Char)
    (st : CabinetState) (d : List Char)
    (hl : st._list_files = false)
    (hok : ∀ f ∈ cab.files, exceptOk (extractFileBytes codec cab f) = true) :
    extract_all codec (.ok cab) cwd st (some d) =
      ({ st with _extract_all := false, _dest := none },
       cab.files.map
         (fun f => ⟨d ++ ['\\'] ++ afterLastBackslash f.name ++ [NUL],
                    extractBytesD codec cab f⟩),
       .ok d) := by
  rw [extract_all, do_callback, setupIterateCabinet, pyFileCallback_cabinfo]
  simp only [NO_ERROR, if_pos]
  rw [iterateAux_extract_all codec cab d cab.files
    { st with _extract_all := true, _dest := some d } [] hl rfl rfl hok]
  simp

/-- When `extract` (explicit destination) raises, the object is left with
`_file_to_extract` and `_dest` still holding the failed request's values:
the resets after `_do_callback` never ran. -/
theorem extract_fail_state (codec : Codec) (parsed : Except CabError Cab)
    (cwd : List Char) (st : CabinetState) (file_name d : List Char)
    (e : PyError) (hl : st._list_files = false)
    (h : (extract codec parsed cwd st file_name (some d)).2.2 = .error e) :
    (extract codec parsed cwd st file_name (some d)).1 =
      { st with _file_to_extract := some file_name, _dest := some d } := by
  have hfst := do_callback_fst codec parsed
    { st with _file_to_extract := some file_name, _dest := some d } hl
  rcases hdc : do_callback codec parsed
      { st with _file_to_extract := some file_name, _dest := some d } with ⟨st2, ws2, res⟩
  rw [hdc] at hfst
  cases res with
  | error e' => rw [extract, hdc]; exact hfst
  | ok u => rw [extract, hdc] at h; simp at h

/-- When `extract_all` (explicit destination) raises, the object is left
with `_extract_all` still `true` and `_dest` still set: the resets after
`_do_callback` never ran. -/
theorem extract_all_fail_state (codec : Codec) (parsed : Except CabError Cab)
    (cwd : List Char) (st : CabinetState) (d : List Char)
    (e : PyError) (hl : st._list_files = false)
    (h : (extract_all codec parsed cwd st (some d)).2.2 = .error e) :
    (extract_all codec parsed cwd st (some d)).1 =
      { st with _extract_all := true, _dest := some d } := by
  have hfst := do_callback_fst codec parsed
    { st with _extract_all := true, _dest := some d } hl
  rcases hdc : do_callback codec parsed
      { st with _extract_all := true, _dest := some d } with ⟨st2, ws2, res⟩
  rw [hdc] at hfst
  cases res with
  | error e' => rw [extract_all, hdc]; exact hfst
  | ok u => rw [extract_all, hdc] at h; simp at h

/-! ### Supporting lemmas: extraction lengths and validity -/

/-- A successful extraction yields exactly the file's declared size. -/
theorem extractFileBytes_length (codec : Codec) (cab : Cab) (f : FileEntry)
    (b : List Nat) (h : extractFileBytes codec cab f = .ok b) :
    b.length = f.size := by
  rw [extractFileBytes] at h
  cases hfld : cab.folders[f.folderIndex]? with
  | none => simp only [hfld] at h; exact absurd h (by simp)
  | some fld =>
    simp only [hfld] at h
    cases hs : folderStream codec fld with
    | error e => simp only [hs] at h; exact absurd h (by simp)
    | ok s =>
      simp only [hs] at h
      by_cases hle : f.offset + f.size ≤ s.length
      · rw [if_pos hle] at h
        cases h
        simp only [List.length_take, List.length_drop]
        omega
      · rw [if_neg hle] at h; exact absurd h (by simp)

/-- In a valid cabinet every catalog entry extracts successfully. -/
theorem validCab_extract_ok (codec : Codec) (cab : Cab)
    (h : validCab codec cab = true) (f : FileEntry) (hf : f ∈ cab.files) :
    exceptOk (extractFileBytes codec cab f) = true := by
  rw [validCab, List.all_eq_true] at h
  have hform := h f hf
  rw [extractFileBytes]
  cases hfld : cab.folders[f.folderIndex]? with
  | none => simp only [hfld] at hform; exact absurd hform (by simp)
  | some fld =>
    simp only [hfld] at hform
    cases hs : folderStream codec fld with
    | error e => simp only [hs] at hform; exact absurd hform (by simp)
    | ok s =>
      simp only [hs, decide_eq_true_eq] at hform
      simp only [hfld, hs, if_pos hform]
      rfl

/-- In a list of file entries where a member's name occurs at most once,
filtering by that member's name yields exactly that member. -/
theorem filter_name_eq_singleton_of_count (l : List FileEntry) (g : FileEntry)
    (hg : g ∈ l) (hcount : (l.map (fun f => f.name)).count g.name ≤ 1) :
    l.filter (fun f => f.name == g.name) = [g] := by
  induction l with
  | nil => cases hg
  | cons h t ih =>
    rw [List.map_cons, List.count_cons] at hcount
    by_cases hname : h.name = g.name
    · have hc0 : (t.map (fun f => f.name)).count g.name = 0 := by
        rw [if_pos (by simp [hname])] at hcount
        omega
      have hnot : ∀ a ∈ t, ¬ a.name = g.name := by
        intro a ha han
        have hmem : g.name ∈ t.map (fun f => f.name) := List.mem_map.mpr ⟨a, ha, han⟩
        rw [← List.count_pos_iff] at hmem
        omega
      have hgh : g = h := by
        rcases List.mem_cons.mp hg with h1 | h2
        · exact h1
        · exact absurd rfl (hnot g h2)
      subst hgh
      rw [List.filter_cons, if_pos (by simp)]
      have hfil : t.filter (fun f => f.name == g.name) = [] := by
        rw [List.filter_eq_nil_iff]
        intro a ha
        simpa using hnot a ha
      rw [hfil]
    · have hgt : g ∈ t := by
        rcases List.mem_cons.mp hg with h1 | h2
        · exact absurd (by rw [h1]) hname
        · exact h2
      rw [List.filter_cons, if_neg (by simpa using hname)]
      refine ih hgt ?_
      rw [if_neg (fun hh => hname (by simpa using hh))] at hcount
      omega

/-- A result that passes `exceptOk` is an `ok` with some payload. -/
theorem exceptOk_exists {α : Type} (x : Except CabError α)
    (h : exceptOk x = true) : ∃ b, x = .ok b := by
  cases x with
  | error e => simp [exceptOk] at h
  | ok b => exact ⟨b, rfl⟩

/-- In single-extract mode, when the requested name occurs at most once in
the remaining file table, stopping the scan right after the extracted file
(the short-circuit refinement) produces exactly the same outcome — state,
success and writes — as scanning the full table. -/
theorem iterate_short_eq (codec : Codec) (cab : Cab) (t d : List Char)
    (fs : List FileEntry) (st : CabinetState) (ws : List WriteRec)
    (hl : st._list_files = false) (he : st._extract_all = false)
    (ht : st._file_to_extract = some t) (hd : st._dest = some d)
    (hcount : (fs.map (fun f => f.name)).count t ≤ 1) :
    iterateShortCircuit codec cab fs st ws = iterateAux codec cab fs st ws := by
  induction fs generalizing ws with
  | nil => rfl
  | cons f fs ih =>
    by_cases hname : f.name = t
    · have hm : some (mkFileInfo f).NameInCabinet = st._file_to_extract := by
        simp [mkFileInfo, ht, hname]
      rw [iterateShortCircuit, iterateAux, pyFileCallback_hit st _ hl he hm]
      simp only [FILEOP_DOIT, if_pos]
      cases hx : extractFileBytes codec cab f with
      | error e => rfl
      | ok bytes =>
        rw [pyFileCallback_extracted]
        simp only [NO_ERROR, if_pos]
        have hzero : (fs.map (fun f => f.name)).count t = 0 := by
          have := hcount
          rw [List.map_cons, List.count_cons] at this
          simp [hname] at this
          omega
        have hnone : ∀ g ∈ fs, ¬ g.name = t := by
          intro g hg hgt
          have : t ∈ fs.map (fun f => f.name) := List.mem_map.mpr ⟨g, hg, hgt⟩
          rw [← List.count_pos_iff] at this
          omega
        rw [iterateAux_extract codec cab t d fs st _ hl he ht hd
          (fun g hg hgt => absurd hgt (hnone g hg))]
        have hfil : fs.filter (fun f => f.name == t) = [] := by
          rw [List.filter_eq_nil_iff]
          intro a ha
          simpa using hnone a ha
        rw [hfil]
        simp
    · have hm : ¬ some (mkFileInfo f).NameInCabinet = st._file_to_extract := by
        simp [mkFileInfo, ht, hname]
      rw [iterateShortCircuit, iterateAux, pyFileCallback_miss st _ hl he hm]
      simp only [FILEOP_SKIP, FILEOP_DOIT]
      norm_num
      refine ih _ ?_
      have := hcount
      rw [List.map_cons, List.count_cons] at this
      simpa [hname] using this

/-! ### The claims -/

/-- C1 counterexample: `cabDupSz` satisfies every spec §3 validity
invariant, yet for its first catalog entry `A` (declared size 1) the call
`extract('A', d)` succeeds but the full-table scan also extracts the
second entry named `A` to the same destination, leaving 2 bytes there —
not the entry's declared 1 byte. -/
theorem C1_counterexample :
    validCab msCodecs cabDupSz = true ∧
    cabinetInit msCodecs (.ok cabDupSz) ['p'] = .ok stDupSz ∧
    mkCabinetFileRec ⟨['A'], 1, 0, 0, 0, 0, 0⟩ ∈ stDupSz.files ∧
    (extract msCodecs (.ok cabDupSz) [] stDupSz
        (mkCabinetFileRec ⟨['A'], 1, 0, 0, 0, 0, 0⟩).name (some ['d'])).2.2 =
      .ok ['d'] ∧
    (finalContents (extract msCodecs (.ok cabDupSz) [] stDupSz
        (mkCabinetFileRec ⟨['A'], 1, 0, 0, 0, 0, 0⟩).name (some ['d'])).2.1
        (['d'] ++ [NUL])).map List.length = some 2 ∧
    (mkCabinetFileRec ⟨['A'], 1, 0, 0, 0, 0, 0⟩).fileSize = 1 :=
  ⟨by decide, by rfl, by decide, by rfl, by rfl, rfl⟩

/-- C1 as amended: for every valid cabinet archive and every file `fr` in
the catalog returned by `list_files()` (the `files` attribute produced at
construction) whose name occurs at most once in the file table,
`extract(fr.name, d)` succeeds, and the extraction writes exactly one file
whose contents are exactly `fr.fileSize` bytes long. -/
theorem C1_extract_unique_name_exact_size (codec : Codec) (cab : Cab)
    (path cwd d : List Char) (st : CabinetState) (fr : CabinetFileRec)
    (hvalid : validCab codec cab = true)
    (hinit : cabinetInit codec (.ok cab) path = .ok st)
    (hfr : fr ∈ st.files)
    (hcount : (cab.files.map (fun f => f.name)).count fr.name ≤ 1) :
    (extract codec (.ok cab) cwd st fr.name (some d)).2.2 = .ok d ∧
    (extract codec (.ok cab) cwd st fr.name (some d)).2.1.map
      (fun w => (w.path, w.contents.length)) = [(d ++ [NUL], fr.fileSize)] := by
  rw [cabinetInit_ok, Except.ok.injEq] at hinit
  subst hinit
  obtain ⟨g, hg, rfl⟩ := List.mem_map.mp hfr
  have hok : ∀ f ∈ cab.files, f.name = (mkCabinetFileRec g).name →
      exceptOk (extractFileBytes codec cab f) = true :=
    fun f hf _ => validCab_extract_ok codec cab hvalid f hf
  rw [extract_some_ok codec cab cwd
    { name := path, files := cab.files.map mkCabinetFileRec,
      _extract_all := false, _file_to_extract := none, _dest := none,
      _list_files := false } (mkCabinetFileRec g).name d rfl rfl hok]
  have hname : (mkCabinetFileRec g).name = g.name := rfl
  have hcg : (cab.files.map (fun f => f.name)).count g.name ≤ 1 := hcount
  rw [hname, filter_name_eq_singleton_of_count cab.files g hg hcg]
  obtain ⟨b, hb⟩ := exceptOk_exists _ (validCab_extract_ok codec cab hvalid g hg)
  have hlen := extractFileBytes_length codec cab g b hb
  refine ⟨rfl, ?_⟩
  simp [extractBytesD, hb, hlen, mkCabinetFileRec]

/-- C1 witness: on the concrete cabinet `cabDemo`, whose single catalog
entry `a` has a unique name, extracting it succeeds and writes exactly 3
bytes. -/
theorem C1_witness :
    (extract msCodecs (.ok cabDemo) [] stDemo
        (mkCabinetFileRec ⟨['a'], 3, 0, 0, 0, 0, 0⟩).name (some ['d'])).2.2 =
      .ok ['d'] ∧
    (extract msCodecs (.ok cabDemo) [] stDemo
        (mkCabinetFileRec ⟨['a'], 3, 0, 0, 0, 0, 0⟩).name (some ['d'])).2.1.map
      (fun w => (w.path, w.contents.length)) =
      [(['d'] ++ [NUL], (mkCabinetFileRec ⟨['a'], 3, 0, 0, 0, 0, 0⟩).fileSize)] :=
  C1_extract_unique_name_exact_size msCodecs cabDemo ['p'] [] ['d'] stDemo
    (mkCabinetFileRec ⟨['a'], 3, 0, 0, 0, 0, 0⟩) (by decide) (by rfl) (by decide)
    (by decide)

/-- C2: a DataBlock whose checksum verifies and whose payload then has one
bit flipped (without updating the checksum) fails decompression with
`ChecksumMismatch` — for EVERY codec, so no decode runs and no silent
wrong-data result is possible. -/
theorem C2_bitflip_checksum_mismatch (codec : Codec) (ct : CompressionType)
    (history : List Nat) (blk : DataBlock) (i k : Nat)
    (hver : csum blk.payload = blk.checksum)
    (hi : i < blk.payload.length) (_hk : k < 8) :
    decompress_block codec ct history
      { blk with payload := flipBit blk.payload i k } = .error .ChecksumMismatch := by
  have hne : ¬ csum (flipBit blk.payload i k) = blk.checksum := by
    rw [← hver]
    exact csum_flipBit_ne blk.payload i k hi
  rw [decompress_block, if_neg hne]

/-- C2 witness: flipping bit 0 of byte 0 of a concrete verified block
yields `ChecksumMismatch` under the concrete codec family. -/
theorem C2_witness :
    csum [1, 2, 3] = (⟨csum [1, 2, 3], [1, 2, 3], 3⟩ : DataBlock).checksum ∧
    decompress_block msCodecs .Stored []
      { (⟨csum [1, 2, 3], [1, 2, 3], 3⟩ : DataBlock) with
        payload := flipBit [1, 2, 3] 0 0 } = .error .ChecksumMismatch :=
  ⟨rfl, C2_bitflip_checksum_mismatch msCodecs .Stored []
    ⟨csum [1, 2, 3], [1, 2, 3], 3⟩ 0 0 rfl (by decide) (by decide)⟩

/-- C3: a buffer of at least 4 bytes whose magic differs from `MSCF` fails
parsing with `MalformedHeader`; feeding that parse result to the `Cabinet`
constructor raises `CabinetError` and yields no object; and in general any
parse failure makes construction raise, so no partially-usable archive
object exists. -/
theorem C3_bad_magic_no_object (bytes : List Nat) (codec : Codec)
    (path : List Char) (e : CabError)
    (hlen : 4 ≤ bytes.length) (hmagic : bytes.take 4 ≠ MSCF) :
    parseCab bytes = .error .MalformedHeader ∧
    cabinetInit codec (parseCab bytes) path = .error .CabinetError ∧
    cabinetInit codec (.error e) path = .error .CabinetError := by
  have hparse : parseCab bytes = .error .MalformedHeader := by
    rw [parseCab, readBytes]
    simp only [List.drop_zero]
    rw [if_pos (by simpa using hlen)]
    simp only
    rw [if_neg hmagic]
  exact ⟨hparse, by rw [hparse]; rfl, rfl⟩

/-- C3 witness: the 4-byte buffer `XXXX` fails with `MalformedHeader` and
constructs no object. -/
theorem C3_witness :
    parseCab [0x58, 0x58, 0x58, 0x58] = .error .MalformedHeader ∧
    cabinetInit msCodecs (parseCab [0x58, 0x58, 0x58, 0x58]) ['p'] =
      .error .CabinetError ∧
    cabinetInit msCodecs (.error .TruncatedData) ['p'] = .error .CabinetError :=
  C3_bad_magic_no_object [0x58, 0x58, 0x58, 0x58] msCodecs ['p'] .TruncatedData
    (by decide) (by decide)

/-- C5: construction succeeds on every parseable cabinet and records the
catalog as a finite list holding exactly the file table in table order
(insertion order, not sorted); the `files` attribute is an immutable list,
so re-iterating it yields the same sequence. -/
theorem C5_list_files_table_order (codec : Codec) (cab : Cab) (path : List Char) :
    cabinetInit codec (.ok cab) path =
      .ok { name := path, files := cab.files.map mkCabinetFileRec,
            _extract_all := false, _file_to_extract := none,
            _dest := none, _list_files := false } ∧
    (cab.files.map mkCabinetFileRec).map (fun r => r.name) =
      cab.files.map (fun f => f.name) :=
  ⟨cabinetInit_ok codec cab path, by simp [mkCabinetFileRec]⟩

/-- C4 counterexample: on the concrete archive `cabMixed`, extracting the
corrupt file `b` fails (raises `CabinetError`) — and the in-memory object
state is NOT left unchanged: `_file_to_extract`/`_dest` keep the failed
request's values because the exception skips the resets. -/
theorem C4_counterexample :
    (extract msCodecs (.ok cabMixed) [] stMixed ['b'] (some ['d'])).2.2 =
      .error .CabinetError ∧
    (extract msCodecs (.ok cabMixed) [] stMixed ['b'] (some ['d'])).1 ≠ stMixed := by
  exact ⟨rfl, by decide⟩

/-- C4 as amended: when an `extract` call fails, the catalog (`files`) and
`name` are unchanged and only the transient fields `_file_to_extract` and
`_dest` are left holding the failed request's values; a subsequent
`extract` of a different file whose entries all decode still succeeds. -/
theorem C4_failed_extract_keeps_catalog (codec : Codec) (cab : Cab)
    (cwd : List Char) (st st1 : CabinetState) (f1 f2 d1 d2 : List Char)
    (ws1 : List WriteRec) (e : PyError)
    (hl : st._list_files = false) (he : st._extract_all = false)
    (h1 : extract codec (.ok cab) cwd st f1 (some d1) = (st1, ws1, .error e))
    (hok : ∀ g ∈ cab.files, g.name = f2 →
      exceptOk (extractFileBytes codec cab g) = true) :
    st1.files = st.files ∧ st1.name = st.name ∧
    st1._file_to_extract = some f1 ∧ st1._dest = some d1 ∧
    st1._extract_all = false ∧ st1._list_files = false ∧
    (extract codec (.ok cab) cwd st1 f2 (some d2)).2.2 = .ok d2 := by
  have h22 : (extract codec (.ok cab) cwd st f1 (some d1)).2.2 = .error e := by
    rw [h1]
  have hst1 : st1 = { st with _file_to_extract := some f1, _dest := some d1 } := by
    have hfix := extract_fail_state codec (.ok cab) cwd st f1 d1 e hl h22
    rw [h1] at hfix
    exact hfix
  subst hst1
  refine ⟨rfl, rfl, rfl, rfl, he, hl, ?_⟩
  rw [extract_some_ok codec cab cwd
    { st with _file_to_extract := some f1, _dest := some d1 } f2 d2 hl he hok]

/-- C4 witness: on `cabMixed`, after the failed extraction of `b` the
catalog and name survive and extracting the healthy `a` succeeds. -/
theorem C4_witness :
    stMixedFail.files = stMixed.files ∧ stMixedFail.name = stMixed.name ∧
    stMixedFail._file_to_extract = some ['b'] ∧ stMixedFail._dest = some ['d'] ∧
    stMixedFail._extract_all = false ∧ stMixedFail._list_files = false ∧
    (extract msCodecs (.ok cabMixed) [] stMixedFail ['a'] (some ['e'])).2.2 =
      .ok ['e'] :=
  C4_failed_extract_keeps_catalog msCodecs cabMixed [] stMixed stMixedFail
    ['b'] ['a'] ['d'] ['e'] [] .CabinetError rfl rfl (by rfl) (by decide)

/-- C6: `extract_all` raises at the first catalog entry whose extraction
fails; the files already written before that entry remain in the write
list (nothing is rolled back), and no later entry is attempted. -/
theorem C6_extract_all_stops_at_first_error (codec : Codec) (cab : Cab)
    (cwd d : List Char) (st : CabinetState)
    (pre rest : List FileEntry) (bad : FileEntry) (e : CabError)
    (hl : st._list_files = false)
    (hfiles : cab.files = pre ++ bad :: rest)
    (hpre : ∀ f ∈ pre, exceptOk (extractFileBytes codec cab f) = true)
    (hbad : extractFileBytes codec cab bad = .error e) :
    extract_all codec (.ok cab) cwd st (some d) =
      ({ st with _extract_all := true, _dest := some d },
       pre.map (fun f => ⟨d ++ ['\\'] ++ afterLastBackslash f.name ++ [NUL],
                          extractBytesD codec cab f⟩),
       .error .CabinetError) := by
  rw [extract_all, do_callback, setupIterateCabinet, pyFileCallback_cabinfo]
  simp only [NO_ERROR, if_pos]
  rw [hfiles, iterateAux_extract_all_fail codec cab d pre rest bad e
    { st with _extract_all := true, _dest := some d } [] hl rfl rfl hpre hbad]
  simp

/-- C6 witness: on `cabMixed3` the healthy `a` is written, the corrupt `b`
raises, and `c` is never attempted. -/
theorem C6_witness :
    extract_all msCodecs (.ok cabMixed3) [] stMixed3 (some ['d']) =
      ({ stMixed3 with _extract_all := true, _dest := some ['d'] },
       [⟨['d'] ++ ['\\'] ++ afterLastBackslash ['a'] ++ [NUL],
         extractBytesD msCodecs cabMixed3 ⟨['a'], 3, 0, 0, 0, 0, 0⟩⟩],
       .error .CabinetError) :=
  C6_extract_all_stops_at_first_error msCodecs cabMixed3 [] ['d'] stMixed3
    [⟨['a'], 3, 0, 0, 0, 0, 0⟩] [⟨['c'], 2, 0, 0, 0, 0, 0⟩]
    ⟨['b'], 1, 0, 1, 0, 0, 0⟩ .ChecksumMismatch rfl rfl (by decide) (by rfl)

/-- C7: extracting the same file twice from the same archive object is
idempotent — when the first call succeeds, the second call returns the
same destination, writes the same bytes to the same paths, and leaves the
same object state. -/
theorem C7_extract_idempotent (codec : Codec) (parsed : Except CabError Cab)
    (cwd : List Char) (st st1 : CabinetState) (f dr : List Char)
    (dOpt : Option (List Char)) (ws : List WriteRec)
    (hl : st._list_files = false)
    (h1 : extract codec parsed cwd st f dOpt = (st1, ws, .ok dr)) :
    extract codec parsed cwd st1 f dOpt = (st1, ws, .ok dr) := by
  cases dOpt with
  | some d =>
    rcases hdc : do_callback codec parsed { st with _file_to_extract := some f, _dest := some d } with ⟨st2, ws2, res⟩
    have hst2 : st2 = { st with _file_to_extract := some f, _dest := some d } := by
      have hfix := do_callback_fst codec parsed { st with _file_to_extract := some f, _dest := some d } hl
      rw [hdc] at hfix
      exact hfix
    subst hst2
    simp only [extract] at h1 ⊢
    rw [hdc] at h1
    cases res with
    | error e => simp at h1
    | ok u =>
      simp only [Prod.mk.injEq, Except.ok.injEq] at h1
      obtain ⟨h1a, h1b, h1c⟩ := h1
      subst h1b
      subst h1c
      have hsame : { st1 with _file_to_extract := some f, _dest := some d } = { st with _file_to_extract := some f, _dest := some d } := by
        rw [← h1a]
      rw [hsame, hdc, ← h1a]
  | none =>
    rcases hdc : do_callback codec parsed { st with _file_to_extract := some f, _dest := some (extractDefaultDest cwd st.name f) } with ⟨st2, ws2, res⟩
    have hst2 : st2 = { st with _file_to_extract := some f, _dest := some (extractDefaultDest cwd st.name f) } := by
      have hfix := do_callback_fst codec parsed { st with _file_to_extract := some f, _dest := some (extractDefaultDest cwd st.name f) } hl
      rw [hdc] at hfix
      exact hfix
    subst hst2
    simp only [extract] at h1 ⊢
    rw [hdc] at h1
    cases res with
    | error e => simp at h1
    | ok u =>
      simp only [Prod.mk.injEq, Except.ok.injEq] at h1
      obtain ⟨h1a, h1b, h1c⟩ := h1
      subst h1b
      subst h1c
      have hname : st1.name = st.name := by rw [← h1a]
      have hsame : { st1 with _file_to_extract := some f, _dest := some (extractDefaultDest cwd st1.name f) } = { st with _file_to_extract := some f, _dest := some (extractDefaultDest cwd st.name f) } := by
        rw [← h1a]
      rw [hsame, hdc, hname, ← h1a]

/-- C7 witness: extracting `a` from `cabDemo` succeeds (leaving the object
back in its idle state `stDemo`), and the repeated call yields the
identical result — byte-identical output both times. -/
theorem C7_witness :
    extract msCodecs (.ok cabDemo) [] stDemo ['a'] (some ['d']) =
      (stDemo, [⟨['d', NUL], [10, 20, 30]⟩], .ok ['d']) ∧
    extract msCodecs (.ok cabDemo) [] stDemo ['a'] (some ['d']) =
      (stDemo, [⟨['d', NUL], [10, 20, 30]⟩], .ok ['d']) :=
  ⟨by rfl, C7_extract_idempotent msCodecs (.ok cabDemo) [] stDemo stDemo
    ['a'] ['d'] (some ['d']) [⟨['d', NUL], [10, 20, 30]⟩] rfl (by rfl)⟩

/-- C8 counterexample: with two catalog entries both named `A` holding
different bytes (a format-legal cabinet), the full scan and the
short-circuit scan both succeed but leave DIFFERENT contents at the shared
destination path — so short-circuiting is externally observable, contrary
to the claim's unconditional unobservability clause. -/
theorem C8_counterexample :
    (iterateAux msCodecs cabDup cabDup.files stDup []).2.1 = true ∧
    (iterateShortCircuit msCodecs cabDup cabDup.files stDup []).2.1 = true ∧
    finalContents (iterateAux msCodecs cabDup cabDup.files stDup []).2.2
        (['d'] ++ [NUL]) ≠
      finalContents (iterateShortCircuit msCodecs cabDup cabDup.files stDup []).2.2
        (['d'] ++ [NUL]) :=
  ⟨rfl, rfl, by decide⟩

/-- C8 as amended: during a single-file extraction the callback returns
`FILEOP_SKIP` for every file that does not match the target (the full
table is scanned) and `FILEOP_DOIT` exactly when the name equals the
requested name; and short-circuiting after the target is externally
unobservable PROVIDED the requested name occurs at most once in the
catalog being scanned. -/
theorem C8_skip_doit_short_circuit (codec : Codec) (cab : Cab)
    (st : CabinetState) (t d : List Char) (g : FileEntry)
    (fs : List FileEntry) (ws : List WriteRec)
    (hl : st._list_files = false) (he : st._extract_all = false)
    (ht : st._file_to_extract = some t) (hd : st._dest = some d)
    (hcount : (fs.map (fun f => f.name)).count t ≤ 1) :
    (pyFileCallback st SPFILENOTIFY_FILEINCABINET (mkFileInfo g) =
      if g.name = t then
        .ret FILEOP_DOIT st { mkFileInfo g with FullTargetName := d ++ [NUL] }
      else .ret FILEOP_SKIP st (mkFileInfo g)) ∧
    iterateShortCircuit codec cab fs st ws = iterateAux codec cab fs st ws := by
  constructor
  · by_cases hname : g.name = t
    · rw [if_pos hname,
        pyFileCallback_hit st _ hl he (by simp [mkFileInfo, ht, hname]), hd]
      rfl
    · rw [if_neg hname,
        pyFileCallback_miss st _ hl he (by simp [mkFileInfo, ht, hname])]
  · exact iterate_short_eq codec cab t d fs st ws hl he ht hd hcount

/-- C8 witness: on `cabDemo`, whose single entry `a` matches the target
once, the callback answers `FILEOP_DOIT` on the match and the two scans
coincide. -/
theorem C8_witness :
    (pyFileCallback stDemoX SPFILENOTIFY_FILEINCABINET
        (mkFileInfo ⟨['a'], 3, 0, 0, 0, 0, 0⟩) =
      if (⟨['a'], 3, 0, 0, 0, 0, 0⟩ : FileEntry).name = ['a'] then
        .ret FILEOP_DOIT stDemoX
          { mkFileInfo ⟨['a'], 3, 0, 0, 0, 0, 0⟩ with
            FullTargetName := ['d'] ++ [NUL] }
      else .ret FILEOP_SKIP stDemoX (mkFileInfo ⟨['a'], 3, 0, 0, 0, 0, 0⟩)) ∧
    iterateShortCircuit msCodecs cabDemo cabDemo.files stDemoX [] =
      iterateAux msCodecs cabDemo cabDemo.files stDemoX [] :=
  C8_skip_doit_short_circuit msCodecs cabDemo stDemoX ['a'] ['d']
    ⟨['a'], 3, 0, 0, 0, 0, 0⟩ cabDemo.files [] rfl rfl rfl rfl (by decide)

/-- C9: a successful `extract` or `extract_all` — each taken on its own —
leaves the catalog (`files`) and `name` untouched, and resets the
transient fields `_file_to_extract`, `_dest`, `_extract_all` to their idle
values (`None`/`None`/`False`), starting from the idle state every archive
object is in after construction.  The two operations are independent
implications: each one applies whether or not the other call would
succeed on the same archive. -/
theorem C9_frame_and_reset (codec : Codec) (parsed : Except CabError Cab)
    (cwd : List Char) (st st1 st2 : CabinetState) (f d1 d2 dr1 dr2 : List Char)
    (ws1 ws2 : List WriteRec)
    (hl : st._list_files = false) (he : st._extract_all = false)
    (hf : st._file_to_extract = none) :
    (extract codec parsed cwd st f (some d1) = (st1, ws1, .ok dr1) →
      st1.files = st.files ∧ st1.name = st.name ∧ st1._file_to_extract = none ∧
      st1._dest = none ∧ st1._extract_all = false) ∧
    (extract_all codec parsed cwd st (some d2) = (st2, ws2, .ok dr2) →
      st2.files = st.files ∧ st2.name = st.name ∧ st2._file_to_extract = none ∧
      st2._dest = none ∧ st2._extract_all = false) := by
  constructor
  · intro h1
    rcases hdc : do_callback codec parsed { st with _file_to_extract := some f, _dest := some d1 } with ⟨sA, wA, res⟩
    have hsA : sA = { st with _file_to_extract := some f, _dest := some d1 } := by
      have hfix := do_callback_fst codec parsed { st with _file_to_extract := some f, _dest := some d1 } hl
      rw [hdc] at hfix
      exact hfix
    subst hsA
    simp only [extract] at h1
    rw [hdc] at h1
    cases res with
    | error e => simp at h1
    | ok u =>
      simp only [Prod.mk.injEq, Except.ok.injEq] at h1
      obtain ⟨h1a, _, _⟩ := h1
      rw [← h1a]
      exact ⟨rfl, rfl, rfl, rfl, he⟩
  · intro h2
    rcases hdc : do_callback codec parsed { st with _extract_all := true, _dest := some d2 } with ⟨sA, wA, res⟩
    have hsA : sA = { st with _extract_all := true, _dest := some d2 } := by
      have hfix := do_callback_fst codec parsed { st with _extract_all := true, _dest := some d2 } hl
      rw [hdc] at hfix
      exact hfix
    subst hsA
    simp only [extract_all] at h2
    rw [hdc] at h2
    cases res with
    | error e => simp at h2
    | ok u =>
      simp only [Prod.mk.injEq, Except.ok.injEq] at h2
      obtain ⟨h2a, _, _⟩ := h2
      rw [← h2a]
      exact ⟨rfl, rfl, hf, rfl, rfl⟩

/-- C9 witness: on `cabMixed` — whose `extract_all` always fails on the
corrupt `b` — the first implication applied to the concrete successful
`extract` of `a` yields the frame/reset facts on their own. -/
theorem C9_witness :
    (extract msCodecs (.ok cabMixed) [] stMixed ['a'] (some ['d']) =
        (stMixed, [⟨['d', NUL], [10, 20, 30]⟩], .ok ['d']) →
      stMixed.files = stMixed.files ∧ stMixed.name = stMixed.name ∧
      stMixed._file_to_extract = none ∧ stMixed._dest = none ∧
      stMixed._extract_all = false) ∧
    (extract_all msCodecs (.ok cabMixed) [] stMixed (some ['e']) =
        (stMixed, [], .ok ['e']) →
      stMixed.files = stMixed.files ∧ stMixed.name = stMixed.name ∧
      stMixed._file_to_extract = none ∧ stMixed._dest = none ∧
      stMixed._extract_all = false) :=
  C9_frame_and_reset msCodecs (.ok cabMixed) [] stMixed stMixed stMixed
    ['a'] ['d'] ['e'] ['d'] ['e'] [⟨['d', NUL], [10, 20, 30]⟩] []
    rfl rfl rfl

/-- C10: destination paths flatten the in-cabinet path — both the
per-file target chosen by the extract-all callback and the default
destination computed by `extract` depend only on the portion of the name
after its last backslash, so two entries whose names differ only before
the last backslash are written to the same destination path. -/
theorem C10_flattened_destination (st : CabinetState) (g1 g2 : FileEntry)
    (cwd nm : List Char)
    (hl : st._list_files = false) (he : st._extract_all = true)
    (h : afterLastBackslash g1.name = afterLastBackslash g2.name) :
    cbTargetName (pyFileCallback st SPFILENOTIFY_FILEINCABINET (mkFileInfo g1)) =
      cbTargetName (pyFileCallback st SPFILENOTIFY_FILEINCABINET (mkFileInfo g2)) ∧
    extractDefaultDest cwd nm g1.name = extractDefaultDest cwd nm g2.name := by
  constructor
  · rw [pyFileCallback_extract_all st _ hl he, pyFileCallback_extract_all st _ hl he]
    simp [cbTargetName, mkFileInfo, h]
  · rw [extractDefaultDest, extractDefaultDest, h]

/-- C10 witness: the names `x\f` and `y\f` (differing only before the last
backslash) are sent to the same destination path. -/
theorem C10_witness :
    cbTargetName (pyFileCallback stDemoAll SPFILENOTIFY_FILEINCABINET
        (mkFileInfo ⟨['x', '\\', 'f'], 0, 0, 0, 0, 0, 0⟩)) =
      cbTargetName (pyFileCallback stDemoAll SPFILENOTIFY_FILEINCABINET
        (mkFileInfo ⟨['y', '\\', 'f'], 0, 0, 0, 0, 0, 0⟩)) ∧
    extractDefaultDest ['w'] ['p'] (⟨['x', '\\', 'f'], 0, 0, 0, 0, 0, 0⟩ : FileEntry).name =
      extractDefaultDest ['w'] ['p'] (⟨['y', '\\', 'f'], 0, 0, 0, 0, 0, 0⟩ : FileEntry).name :=
  C10_flattened_destination stDemoAll ⟨['x', '\\', 'f'], 0, 0, 0, 0, 0, 0⟩
    ⟨['y', '\\', 'f'], 0, 0, 0, 0, 0, 0⟩ ['w'] ['p'] rfl rfl (by decide)

end PyCabfile
